import Mathlib

/-!
Verification development for the mitmproxy `examples/har_dump.py` inline
script: a shallow embedding of its data model and of the three lifecycle
hooks (`start`, `response`, `done`) plus the formatting helpers
(`format_cookies`, `name_value`, timing computation), together with
theorems settling the specification claims about them.

Python dictionaries and JSON documents are embedded as the inductive type
`Json` below, with objects as ordered association lists (preserving
insertion order). Python floats (flow timestamps) are embedded as
rationals; Python `int()` truncation toward zero is `pyInt`. External
collaborators that the script calls but whose code is outside this file's
repository snapshot (netlib's `group_cookies`, `datetime`/`pytz`
rendering, `pprint.pformat`) are modelled from the specification and
marked as such in their doc comments.

Fallible code is embedded with `Except`: in the source, the parameter
`cookies` of `format_cookies` (line 133) shadows the netlib cookie module
imported on line 16, so line 152 raises `AttributeError` on the first
loop iteration of every non-empty cookie collection. Entry construction
therefore fails for every flow carrying request or response cookies, and
`format_cookies`, `makeEntry` and the `response` hook are embedded as
`Except`-valued functions that reproduce exactly that error path.
-/

namespace HarDump

/-- JSON-style values: the universe of the accumulated HAR document.
Objects are ordered association lists, mirroring dict insertion order;
this is what `json.dumps` serializes. -/
inductive Json where
  | str (s : String)
  | int (n : Int)
  | bool (b : Bool)
  | arr (elems : List Json)
  | obj (members : List (String × Json))
deriving Repr

/-- First-match association-list lookup: Python dict/multidict key access. -/
def alookup {β : Type} (k : String) : List (String × β) → Option β
  | [] => none
  | kv :: t => if kv.1 = k then some kv.2 else alookup k t

/-- Look up a key in a JSON object (first occurrence); `none` on non-objects. -/
def jget (j : Json) (k : String) : Option Json :=
  match j with
  | .obj kvs => alookup k kvs
  | _ => none

/-- Two-level lookup: `jget2 j k1 k2 = jget (j[k1]) k2`. -/
def jget2 (j : Json) (k1 k2 : String) : Option Json :=
  (jget j k1).bind (fun v => jget v k2)

/-- Python `int()` applied to a real number: truncation toward zero.
For a rational in lowest terms this is T-division of numerator by
denominator. -/
def pyInt (q : ℚ) : Int :=
  q.num.tdiv (q.den : Int)

/-! ## The generic name/value converter (`name_value`, har_dump.py lines 169-183)

The Python function duck-types its input: it uses the `fields` attribute
when present, otherwise the `items()` method when present, otherwise an
empty list. `NVInput` reifies exactly that attribute surface: which of
the two access paths the object exposes, and what each yields. -/

/-- The duck-typed input of `name_value`: an object optionally exposing a
`fields` collection and optionally an `items()` method, each yielding
(name, value) pairs. -/
structure NVInput where
  fieldsAttr : Option (List (String × String))
  itemsMethod : Option (List (String × String))

/-- The item resolution at the top of `name_value`: `fields` is preferred,
then `items()`, else the empty list (Python lines 174-178). -/
def nvItems (o : NVInput) : List (String × String) :=
  match o.fieldsAttr with
  | some fs => fs
  | none =>
    match o.itemsMethod with
    | some its => its
    | none => []

/-- `name_value` (har_dump.py lines 169-183): convert (key, value) pairs to
HAR format; a falsy (empty) item collection yields the empty string, not
an empty array. -/
def name_value (o : NVInput) : Json :=
  let items := nvItems o
  if items ≠ [] then
    .arr (items.map (fun kv => .obj [("name", .str kv.1), ("value", .str kv.2)]))
  else
    .str ""

/-! ## Cookie formatting (har_dump.py lines 133-166) -/

/-- Cookie attribute maps, as ordered (key, value) lists; `key in attrs`
is membership among the keys and `attrs[key]` is the first value. -/
abbrev Attrs := List (String × String)

/-- Modelled from the spec: `format_datetime(datetime.utcfromtimestamp(t))`
for a fractional Unix timestamp — the start-time rendering of an entry
(ISO-8601 with explicit UTC offset, calendar arithmetic external). -/
def format_datetime_of_q (ts : ℚ) : String :=
  "ts " ++ toString ts ++ "+00:00"

/-- The `AttributeError` raised by line 152 of the source: the parameter
`cookies` of `format_cookies` (line 133) shadows the netlib cookie module
imported on line 16, so `cookies.get_expiration_ts(attrs)` is an
attribute access on the formatter's input collection (a list or a
generator), which has no such attribute. -/
def attributeErrorMsg : String :=
  "AttributeError: object has no attribute " ++ "\x27get_expiration_ts\x27"

/-- `format_cookies` (har_dump.py lines 133-158). Because the parameter
`cookies` shadows the netlib module, the first iteration of the loop body
raises `AttributeError` at line 152 — after building the local record of
lines 137-149 but before the `append` on line 156 — so every non-empty
input raises and only the empty input reaches the `return` on line 158
(with the empty list). The record-building of lines 137-151 and the
expiration rendering of lines 153-154 are consequently dead code with no
observable effect. -/
def format_cookies (cs : List (String × String × Attrs)) : Except String (List Json) :=
  match cs with
  | [] => .ok []
  | _ :: _ => .error attributeErrorMsg

/-- Modelled from the spec: `netlib.http.cookies.group_cookies` is not part
of this file's repository snapshot. Per the spec the request side supplies
plain (name, value) header fields that are normalized to
(name, value, attribute-map) triples; each pair becomes a triple with an
empty attribute map. -/
def group_cookies (fields : List (String × String)) : List (String × String × Attrs) :=
  fields.map (fun f => (f.1, f.2, []))

/-- `format_request_cookies` (har_dump.py lines 161-162). Inside this
function the name `cookies` is not shadowed, so `cookies.group_cookies`
correctly resolves to the netlib module; the failure happens afterwards
in `format_cookies` whenever the grouped list is non-empty. -/
def format_request_cookies (fields : List (String × String)) : Except String (List Json) :=
  format_cookies (group_cookies fields)

/-- The response-side cookie shape: `(name, cookieObj)` where the cookie
object carries `.value` and `.attrs`. -/
structure RespCookie where
  value : String
  attrs : Attrs
deriving Repr, DecidableEq

/-- `format_response_cookies` (har_dump.py lines 165-166): normalize the
response-side pairs to triples and format; fails like the request side on
any non-empty input. -/
def format_response_cookies (fields : List (String × RespCookie)) : Except String (List Json) :=
  format_cookies (fields.map (fun c => (c.1, c.2.value, c.2.attrs)))

/-! ## Flow objects (the host proxy's per-flow data, spec section 6) -/

/-- Case-insensitive header lookup with a default: models
`netlib` `Headers.get(k, d)` as used on lines 102 and 104. -/
def headers_get (fields : List (String × String)) (k d : String) : String :=
  match fields.find? (fun f => f.1.toLower == k.toLower) with
  | some f => f.2
  | none => d

/-- The request half of a flow, as consumed by the `response` hook.
`headers_str` is the host's serialized header text (`str(headers)`), whose
length gives `headersSize`; `content` is the raw body bytes. -/
structure Request where
  timestamp_start : ℚ
  timestamp_end : ℚ
  method : String
  url : String
  http_version : String
  cookies_fields : List (String × String)
  headers_fields : List (String × String)
  headers_str : String
  query : List (String × String)
  content : List Nat

/-- The response half of a flow. -/
structure Response where
  timestamp_start : ℚ
  timestamp_end : ℚ
  status_code : Int
  reason : String
  http_version : String
  cookies_fields : List (String × RespCookie)
  headers_fields : List (String × String)
  headers_str : String
  content : List Nat

/-- A completed flow, as handed to the `response` hook. -/
structure Flow where
  request : Request
  response : Response

/-! ## Timings (har_dump.py lines 60-71) -/

/-- `timings_raw` then the millisecond re-encoding (lines 60-67): the three
HAR timings in the dict's insertion order, each `int(1000 * v)`. -/
def timings_ms (flow : Flow) : List (String × Int) :=
  [("send", pyInt (1000 * (flow.request.timestamp_end - flow.request.timestamp_start))),
   ("receive", pyInt (1000 * (flow.response.timestamp_end - flow.response.timestamp_start))),
   ("wait", pyInt (1000 * (flow.response.timestamp_start - flow.request.timestamp_end)))]

/-- `full_time` (line 71): the sum of the timing values, ignoring values
that are not `> -1`. -/
def full_time (flow : Flow) : Int :=
  (((timings_ms flow).map Prod.snd).filter (fun v => v > -1)).sum

/-! ## The entry built by the `response` hook (har_dump.py lines 73-110) -/

/-- `name_value(flow.request.headers)`: a netlib header collection exposes
`fields`. -/
def nvOfHeaders (fields : List (String × String)) : NVInput :=
  ⟨some fields, none⟩

/-- `name_value(flow.request.query or {})` (line 89): an empty (falsy)
query collection is replaced by the empty dict `{}`, which exposes
`items()`; a non-empty one exposes `fields`. -/
def nvOfQuery (query : List (String × String)) : NVInput :=
  if query = [] then ⟨none, some []⟩ else ⟨some query, none⟩

/-- The entry record of lines 80-110 given successfully formatted request
and response cookie lists, with the size calculations of lines 76-78
inlined where they are used. -/
def entryJson (flow : Flow) (reqCookies respCookies : List Json) : Json :=
  let response_body_size : Int := flow.response.content.length
  let response_body_decoded_size : Int := flow.response.content.length
  let response_body_compression : Int := response_body_decoded_size - response_body_size
  .obj [
    ("startedDateTime", .str (format_datetime_of_q flow.request.timestamp_start)),
    ("time", .int (full_time flow)),
    ("request", .obj [
      ("method", .str flow.request.method),
      ("url", .str flow.request.url),
      ("httpVersion", .str flow.request.http_version),
      ("cookies", .arr reqCookies),
      ("headers", name_value (nvOfHeaders flow.request.headers_fields)),
      ("queryString", name_value (nvOfQuery flow.request.query)),
      ("headersSize", .int flow.request.headers_str.length),
      ("bodySize", .int flow.request.content.length)]),
    ("response", .obj [
      ("status", .int flow.response.status_code),
      ("statusText", .str flow.response.reason),
      ("httpVersion", .str flow.response.http_version),
      ("cookies", .arr respCookies),
      ("headers", name_value (nvOfHeaders flow.response.headers_fields)),
      ("content", .obj [
        ("size", .int response_body_size),
        ("compression", .int response_body_compression),
        ("mimeType", .str (headers_get flow.response.headers_fields "Content-Type" ""))]),
      ("redirectURL", .str (headers_get flow.response.headers_fields "Location" "")),
      ("headersSize", .int flow.response.headers_str.length),
      ("bodySize", .int response_body_size)]),
    ("cache", .obj []),
    ("timings", .obj ((timings_ms flow).map (fun kv => (kv.1, Json.int kv.2))))]

/-- Entry construction as the source evaluates it inside the dict literal
of lines 80-110: the request cookies member (line 87) is evaluated before
the response cookies member (line 97), and either one raises
`AttributeError` out of the literal (see `format_cookies`) when the flow
carries cookies on that side, so no entry exists for such a flow. -/
def makeEntry (flow : Flow) : Except String Json :=
  (format_request_cookies flow.request.cookies_fields).bind (fun reqCookies =>
    (format_response_cookies flow.response.cookies_fields).map (fun respCookies =>
      entryJson flow reqCookies respCookies))

/-! ## The lifecycle hooks on the process-wide document -/

/-- The usage message of the `ValueError` raised by `start` (lines 26-30). -/
def usageMsg : String :=
  "Usage: -s \"har_dump.py filename\" (- will output to stdout, filenames " ++
  "ending with .zhar will result in compressed har)"

/-- The document installed by `HAR.update` at startup (lines 32-42),
parameterized by the host's `version.MITMPROXY` string. -/
def initialHar (mitmVersion : String) : Json :=
  .obj [("log", .obj [
    ("version", .str "1.2"),
    ("creator", .obj [
      ("name", .str "mitmproxy har_dump"),
      ("version", .str "0.1"),
      ("comment", .str ("mitmproxy version " ++ mitmVersion))]),
    ("entries", .arr [])])]

/-- `start` (har_dump.py lines 21-42): validate `sys.argv` (the script name
plus the destination arguments, so exactly one destination argument means
length 2) and install the initial document; the `ValueError` aborts before
any update, leaving the document as the empty `\x7b\x7d` it was at module load. -/
def start (sys_argv : List String) (mitmVersion : String) : Except String Json :=
  if sys_argv.length ≠ 2 then
    .error usageMsg
  else
    .ok (initialHar mitmVersion)

/-- Replace the value at (the occurrences of) a key of a JSON object,
leaving every other member and non-objects unchanged: the shape of an
in-place `d[k]` mutation. -/
def objModify (k : String) (f : Json → Json) : Json → Json
  | .obj kvs => .obj (kvs.map (fun kv => if kv.1 = k then (kv.1, f kv.2) else kv))
  | j => j

/-- Append to a JSON array, leaving non-arrays unchanged: the shape of an
in-place `.append` mutation. -/
def arrAppend (e : Json) : Json → Json
  | .arr es => .arr (es ++ [e])
  | j => j

/-- The successful append of line 80:
`HAR["log"]["entries"].append(entry)`. -/
def appendEntry (entry : Json) (har : Json) : Json :=
  objModify "log" (objModify "entries" (arrAppend entry)) har

/-- The `response` hook (har_dump.py lines 45-110) as a document
transformer: build the entry and append it. When entry construction
raises (any flow with request or response cookies), the exception
propagates out of the hook before `.append` runs, so the document is
unchanged and no entry is recorded. -/
def response (flow : Flow) (har : Json) : Except String Json :=
  (makeEntry flow).map (fun entry => appendEntry entry har)

/-- A sequence of `response` invocations, one per flow in order, each of
which must succeed; the first raised exception is returned. -/
def runFlows : List Flow → Json → Except String Json
  | [], har => .ok har
  | f :: fs, har => (response f har).bind (fun har2 => runFlows fs har2)

/-- The observable side effects of the `done` hook. `writeFile` denotes
`open(path, "wb")` followed by a single write: a truncating write that
fully overwrites any existing content of the file. `log` denotes a
message sent to `mitmproxy.ctx.log`. -/
inductive Effect where
  | log (msg : String)
  | writeFile (path : String) (contents : String)
deriving Repr, DecidableEq

/-! ## The JSON serializer: `json.dumps(HAR, indent=2)` (line 124)

Serialization is rendered to `List Char`. Container members are spread
over lines with 2-space indentation steps, keys separated from values by
`: ` and items by `,` plus a newline, empty containers compact — the
layout `json.dumps` produces for `indent=2`. Per the spec the output is
UTF-8 JSON, so non-ASCII characters are emitted literally; control
characters are escaped. -/

/-- `n` spaces of indentation. -/
def sp (n : Nat) : List Char := List.replicate n ' '

/-- Lowercase hex digit for `n < 16`. -/
def hexChar (n : Nat) : Char :=
  if n < 10 then Char.ofNat ('0'.toNat + n) else Char.ofNat ('a'.toNat + (n - 10))

/-- JSON string escaping of one character: the two structural characters,
the short escapes, `\u00XX` for remaining control characters, everything
else literal. -/
def escapeChar (c : Char) : List Char :=
  if c = '"' then ['\\', '"']
  else if c = '\\' then ['\\', '\\']
  else if c = '\n' then ['\\', 'n']
  else if c = '\t' then ['\\', 't']
  else if c = '\r' then ['\\', 'r']
  else if c = '\x08' then ['\\', 'b']
  else if c = '\x0c' then ['\\', 'f']
  else if c.toNat < 32 then
    ['\\', 'u', '0', '0', hexChar (c.toNat / 16), hexChar (c.toNat % 16)]
  else [c]

/-- Escape a whole string body. -/
def escapeStr : List Char → List Char
  | [] => []
  | c :: cs => escapeChar c ++ escapeStr cs

/-- A JSON string literal. -/
def dumpStr (s : List Char) : List Char := '"' :: (escapeStr s ++ ['"'])

/-- Decimal digits of a natural number, most significant first. -/
def natDigits (n : Nat) : List Char :=
  if _h : n < 10 then [Char.ofNat ('0'.toNat + n)]
  else natDigits (n / 10) ++ [Char.ofNat ('0'.toNat + n % 10)]
decreasing_by exact Nat.div_lt_self (by omega) (by omega)

/-- A JSON integer literal. -/
def dumpInt (i : Int) : List Char :=
  if i < 0 then '-' :: natDigits i.natAbs else natDigits i.toNat

mutual

/-- Render a JSON value at indentation level `ind` (the indentation of the
container's closing bracket). -/
def dumpVal (ind : Nat) : Json → List Char
  | .str s => dumpStr s.data
  | .int i => dumpInt i
  | .bool b => if b then ['t', 'r', 'u', 'e'] else ['f', 'a', 'l', 's', 'e']
  | .arr [] => ['[', ']']
  | .arr (x :: xs) =>
      '[' :: '\n' :: (sp (ind + 2) ++ (dumpVal (ind + 2) x ++ (dumpItems (ind + 2) xs
        ++ ('\n' :: (sp ind ++ [']'])))))
  | .obj [] => ['\x7b', '\x7d']
  | .obj (kv :: kvs) =>
      '\x7b' :: '\n' :: (sp (ind + 2) ++ (dumpMember (ind + 2) kv ++ (dumpMembers (ind + 2) kvs
        ++ ('\n' :: (sp ind ++ ['\x7d'])))))

/-- Render the second and later array items, each preceded by `,`, a
newline and indentation. -/
def dumpItems (ind : Nat) : List Json → List Char
  | [] => []
  | x :: xs => ',' :: '\n' :: (sp ind ++ (dumpVal ind x ++ dumpItems ind xs))

/-- Render one object member: quoted key, `: `, value. -/
def dumpMember (ind : Nat) : String × Json → List Char
  | (k, v) => dumpStr k.data ++ (':' :: ' ' :: dumpVal ind v)

/-- Render the second and later object members. -/
def dumpMembers (ind : Nat) : List (String × Json) → List Char
  | [] => []
  | kv :: kvs => ',' :: '\n' :: (sp ind ++ (dumpMember ind kv ++ dumpMembers ind kvs))

end

/-- `json.dumps(HAR, indent=2)` (line 124). -/
def jsonDumps (j : Json) : String := String.mk (dumpVal 0 j)

mutual

/-- Modelled from the spec: `pprint.pformat` is Python standard library,
external to this file's repository snapshot. Per the spec, a
human-readable structural dump, not necessarily valid JSON; modelled with
Python `repr` conventions (single-quoted strings, capitalized booleans),
line wrapping elided. -/
def pyRepr : Json → String
  | .str s => "\x27" ++ s ++ "\x27"
  | .int i => toString i
  | .bool b => if b then "True" else "False"
  | .arr xs => "[" ++ pyReprItems xs ++ "]"
  | .obj kvs => "\x7b" ++ pyReprMembers kvs ++ "\x7d"

/-- Comma-separated `repr`s of list items. -/
def pyReprItems : List Json → String
  | [] => ""
  | [x] => pyRepr x
  | x :: xs => pyRepr x ++ ", " ++ pyReprItems xs

/-- Comma-separated `repr`s of dict members. -/
def pyReprMembers : List (String × Json) → String
  | [] => ""
  | [kv] => "\x27" ++ kv.1 ++ "\x27: " ++ pyRepr kv.2
  | kv :: kvs => "\x27" ++ kv.1 ++ "\x27: " ++ pyRepr kv.2 ++ ", " ++ pyReprMembers kvs

end

/-- `pprint.pformat(HAR)` (line 120); see `pyRepr`. -/
def pformat (j : Json) : String := pyRepr j

/-- The `done` hook (har_dump.py lines 113-124), taking `sys.argv[1]`
(validated by `start`) and the accumulated document: the sentinel `-`
sends the structural dump to `mitmproxy.ctx.log`; any other destination
gets one truncating file write of the 2-space-indented JSON. -/
def done (dump_file : String) (har : Json) : List Effect :=
  if dump_file = "-" then
    [.log (pformat har)]
  else
    [.writeFile dump_file (jsonDumps har)]

/-! ## A JSON reader, to state the round-trip property of the written file -/

/-- Skip JSON whitespace. -/
def skipWs : List Char → List Char
  | [] => []
  | c :: l => if c = ' ' ∨ c = '\n' ∨ c = '\t' ∨ c = '\r' then skipWs l else c :: l

/-- Value of a hex digit character. -/
def hexDigitVal (c : Char) : Option Nat :=
  if '0' ≤ c ∧ c ≤ '9' then some (c.toNat - '0'.toNat)
  else if 'a' ≤ c ∧ c ≤ 'f' then some (c.toNat - 'a'.toNat + 10)
  else if 'A' ≤ c ∧ c ≤ 'F' then some (c.toNat - 'A'.toNat + 10)
  else none

/-- The character denoted by a short escape `\c`. -/
def unescChar (c : Char) : Option Char :=
  if c = '"' then some '"'
  else if c = '\\' then some '\\'
  else if c = '/' then some '/'
  else if c = 'n' then some '\n'
  else if c = 't' then some '\t'
  else if c = 'r' then some '\r'
  else if c = 'b' then some '\x08'
  else if c = 'f' then some '\x0c'
  else none

mutual

/-- Read a string body up to the closing quote, decoding escapes;
returns the decoded characters and the input after the quote.
`parseEsc` handles the character after a backslash and `parseHex4` the
four hex digits of a unicode escape. -/
def parseStrBody : List Char → Option (List Char × List Char)
  | [] => none
  | c :: rest =>
    if c = '"' then some ([], rest)
    else if c = '\\' then parseEsc rest
    else (parseStrBody rest).map (fun p => (c :: p.1, p.2))

/-- Decode the character after a backslash. -/
def parseEsc : List Char → Option (List Char × List Char)
  | [] => none
  | e :: rest2 =>
    if e = 'u' then parseHex4 rest2
    else (unescChar e).bind (fun u => (parseStrBody rest2).map (fun p => (u :: p.1, p.2)))

/-- Decode the four hex digits of a unicode escape. -/
def parseHex4 : List Char → Option (List Char × List Char)
  | h1 :: h2 :: h3 :: h4 :: rest3 =>
    (hexDigitVal h1).bind (fun d1 => (hexDigitVal h2).bind (fun d2 =>
      (hexDigitVal h3).bind (fun d3 => (hexDigitVal h4).bind (fun d4 =>
        (parseStrBody rest3).map
          (fun p => (Char.ofNat (((d1 * 16 + d2) * 16 + d3) * 16 + d4) :: p.1, p.2))))))
  | _ => none

end

/-- Accumulate decimal digits; stops at the first non-digit. -/
def parseDigits (acc : Nat) : List Char → Nat × List Char
  | [] => (acc, [])
  | c :: l =>
    if c.isDigit then parseDigits (acc * 10 + (c.toNat - '0'.toNat)) l else (acc, c :: l)

/-- Read a natural number literal (at least one digit). -/
def parseNat : List Char → Option (Nat × List Char)
  | [] => none
  | c :: l => if c.isDigit then some (parseDigits 0 (c :: l)) else none

/-- Consume an expected literal character sequence. -/
def expects : List Char → List Char → Option (List Char)
  | [], l => some l
  | _ :: _, [] => none
  | p :: ps, c :: l => if c = p then expects ps l else none

mutual

/-- Read one JSON value after skipping leading whitespace. `fuel` bounds
the nesting depth and member count; `jsonParse` supplies enough for any
input. -/
def parseVal : Nat → List Char → Option (Json × List Char)
  | 0, _ => none
  | fuel + 1, l => parseValCore fuel (skipWs l)

/-- Dispatch on the first significant character of a value. -/
def parseValCore (fuel : Nat) : List Char → Option (Json × List Char)
  | [] => none
  | c :: r =>
    if c = '"' then (parseStrBody r).map (fun p => (.str (String.mk p.1), p.2))
    else if c = '\x7b' then (parseMembers fuel r).map (fun p => (.obj p.1, p.2))
    else if c = '[' then (parseItems fuel r).map (fun p => (.arr p.1, p.2))
    else if c = 't' then (expects ['r', 'u', 'e'] r).map (fun r2 => (.bool true, r2))
    else if c = 'f' then (expects ['a', 'l', 's', 'e'] r).map (fun r2 => (.bool false, r2))
    else if c = '-' then (parseNat r).map (fun p => (.int (-(p.1 : Int)), p.2))
    else if c.isDigit then (parseNat (c :: r)).map (fun p => (.int (p.1 : Int), p.2))
    else none

/-- Read the items of an array after its `[`. -/
def parseItems : Nat → List Char → Option (List Json × List Char)
  | 0, _ => none
  | fuel + 1, l =>
    if (skipWs l).head? = some ']' then some ([], (skipWs l).tail)
    else
      (parseVal fuel (skipWs l)).bind (fun q =>
        if (skipWs q.2).head? = some ',' then
          (parseItems fuel (skipWs q.2).tail).map (fun p => (q.1 :: p.1, p.2))
        else if (skipWs q.2).head? = some ']' then some ([q.1], (skipWs q.2).tail)
        else none)

/-- Read the members of an object after its opening brace. -/
def parseMembers : Nat → List Char → Option (List (String × Json) × List Char)
  | 0, _ => none
  | fuel + 1, l =>
    if (skipWs l).head? = some '\x7d' then some ([], (skipWs l).tail)
    else parseKeyCont fuel (skipWs l)

/-- Read one `"key": value` member and the members after it. -/
def parseKeyCont (fuel : Nat) : List Char → Option (List (String × Json) × List Char)
  | '"' :: r =>
    (parseStrBody r).bind (fun kq =>
      if (skipWs kq.2).head? = some ':' then
        (parseVal fuel (skipWs kq.2).tail).bind (fun vq =>
          if (skipWs vq.2).head? = some ',' then
            (parseMembers fuel (skipWs vq.2).tail).map
              (fun p => ((String.mk kq.1, vq.1) :: p.1, p.2))
          else if (skipWs vq.2).head? = some '\x7d' then
            some ([(String.mk kq.1, vq.1)], (skipWs vq.2).tail)
          else none)
      else none)
  | _ => none

end

/-- Parse a complete JSON document: one value, then only whitespace. -/
def jsonParse (s : String) : Option Json :=
  match parseVal (s.length + 1) s.data with
  | some (v, rest) => if skipWs rest = [] then some v else none
  | none => none

/-! ## Size measures used to discharge the parser fuel -/

mutual

/-- Fuel needed to parse a rendered value. -/
def jsize : Json → Nat
  | .str _ => 1
  | .int _ => 1
  | .bool _ => 1
  | .arr xs => 1 + lsize xs
  | .obj kvs => 1 + osize kvs

/-- Fuel needed to parse a rendered item list. -/
def lsize : List Json → Nat
  | [] => 1
  | x :: xs => 1 + jsize x + lsize xs

/-- Fuel needed to parse a rendered member list. -/
def osize : List (String × Json) → Nat
  | [] => 1
  | kv :: kvs => 1 + jsize kv.2 + osize kvs

end

/-! ## Concrete fixtures used to instantiate the theorems -/

/-- A concrete flow carrying one request cookie — an input on which the
program's `response` hook raises `AttributeError` at line 152 during
entry construction and appends nothing. -/
def sampleFlow : Flow where
  request := {
    timestamp_start := 1
    timestamp_end := 2
    method := "GET"
    url := "http://example.com/?a=b"
    http_version := "HTTP/1.1"
    cookies_fields := [("sid", "1")]
    headers_fields := [("Host", "example.com")]
    headers_str := "Host: example.com\r\n"
    query := [("a", "b")]
    content := [] }
  response := {
    timestamp_start := 2
    timestamp_end := 3
    status_code := 200
    reason := "OK"
    http_version := "HTTP/1.1"
    cookies_fields := []
    headers_fields := [("Content-Type", "text/html")]
    headers_str := "Content-Type: text/html\r\n"
    content := [104, 105] }

/-- A cookie-free flow (the only kind the program's `response` hook
completes on), with `response.timestamp_start = request.timestamp_end`;
used to instantiate the timing and append theorems. -/
def sampleFlow2 : Flow where
  request := {
    timestamp_start := 1
    timestamp_end := 2
    method := "GET"
    url := "http://example.com/?a=b"
    http_version := "HTTP/1.1"
    cookies_fields := []
    headers_fields := [("Host", "example.com")]
    headers_str := "Host: example.com\r\n"
    query := [("a", "b")]
    content := [] }
  response := {
    timestamp_start := 2
    timestamp_end := 3
    status_code := 200
    reason := "OK"
    http_version := "HTTP/1.1"
    cookies_fields := []
    headers_fields := [("Content-Type", "text/html")]
    headers_str := "Content-Type: text/html\r\n"
    content := [104, 105] }

/-! # Theorems -/

/-- Python `int()` on a nonnegative rational is the floor. -/
theorem pyInt_of_nonneg (q : ℚ) (h : 0 ≤ q) : pyInt q = ⌊q⌋ := by
  unfold pyInt
  rw [Rat.floor_def]
  exact Int.tdiv_eq_ediv (Rat.num_nonneg.mpr h) (by positivity)

/-- Python `int()` on a negative rational is the ceiling: truncation
toward zero. -/
theorem pyInt_of_neg (q : ℚ) (h : q < 0) : pyInt q = ⌈q⌉ := by
  unfold pyInt
  have hn : q.num < 0 := Rat.num_neg.mpr h
  have h1 : q.num.tdiv q.den = -((-q.num).tdiv q.den) := by
    rw [Int.neg_tdiv]; ring
  have h2 : ⌈q⌉ = -⌊-q⌋ := by rw [Int.floor_neg]; ring
  rw [h1, Int.tdiv_eq_ediv (by omega) (by positivity), h2, Rat.floor_def]
  congr 1

/-- On integers, the source's `v > -1` guard (line 71) is exactly
nonnegativity. -/
theorem filter_gt_neg_one (l : List Int) :
    l.filter (fun v => v > -1) = l.filter (fun v => 0 ≤ v) := by
  apply List.filter_congr
  intro a _
  simp only [decide_eq_decide]
  omega

/-- Replacing the value at one key of an association list changes lookups
of exactly that key. -/
theorem alookup_map_modify {β : Type} (k k' : String) (f : β → β)
    (kvs : List (String × β)) :
    alookup k' (kvs.map (fun kv => if kv.1 = k then (kv.1, f kv.2) else kv)) =
      if k' = k then (alookup k' kvs).map f else alookup k' kvs := by
  induction kvs with
  | nil => by_cases h : k' = k <;> simp [alookup, h]
  | cons kv t ih =>
    by_cases h1 : kv.1 = k <;> by_cases h2 : kv.1 = k'
    · have hkk : k' = k := by rw [← h1, ← h2]
      simp [alookup, h1, h2, hkk]
    · have hkk : ¬ (k' = k) := by rw [← h1]; exact fun hc => h2 hc.symm
      have hkk2 : ¬ (k = k') := fun hc => hkk hc.symm
      simp [alookup, h1, h2, hkk, hkk2, ih]
    · have hkk : ¬ (k' = k) := by rw [← h2]; exact fun hc => h1 hc
      have hkk2 : ¬ (k = k') := fun hc => hkk hc.symm
      simp [alookup, h1, h2, hkk, hkk2]
    · simp [alookup, h1, h2, ih]

/-- Modifying a key of an object changes exactly that key's value. -/
theorem jget_objModify_self (k : String) (f : Json → Json) (j : Json) :
    jget (objModify k f j) k = (jget j k).map f := by
  cases j with
  | obj kvs => simp [objModify, jget, alookup_map_modify]
  | str s => rfl
  | int n => rfl
  | bool b => rfl
  | arr es => rfl

/-- Modifying a key of an object leaves every other key unchanged. -/
theorem jget_objModify_ne (k k' : String) (hne : k' ≠ k) (f : Json → Json) (j : Json) :
    jget (objModify k f j) k' = jget j k' := by
  cases j with
  | obj kvs => simp [objModify, jget, alookup_map_modify, hne]
  | str s => rfl
  | int n => rfl
  | bool b => rfl
  | arr es => rfl

/-- Binding a successful `Except` computation applies the continuation. -/
theorem except_bind_ok {α β : Type} (a : α) (f : α → Except String β) :
    (Except.ok a : Except String α).bind f = f a := rfl

/-- Binding a failed `Except` computation propagates the error. -/
theorem except_bind_error {α β : Type} (e : String) (f : α → Except String β) :
    (Except.error e : Except String α).bind f = .error e := rfl

/-- Mapping over a successful `Except` computation applies the function. -/
theorem except_map_ok {α β : Type} (a : α) (f : α → β) :
    (Except.ok a : Except String α).map f = .ok (f a) := rfl

/-- Mapping over a failed `Except` computation propagates the error. -/
theorem except_map_error {α β : Type} (e : String) (f : α → β) :
    (Except.error e : Except String α).map f = .error e := rfl

/-- Entry construction succeeds with the lines 80-110 record exactly when
the flow has no request and no response cookies, and otherwise raises the
line-152 `AttributeError`. -/
theorem makeEntry_eq (flow : Flow) :
    makeEntry flow =
      if flow.request.cookies_fields = [] ∧ flow.response.cookies_fields = [] then
        .ok (entryJson flow [] [])
      else .error attributeErrorMsg := by
  unfold makeEntry format_request_cookies format_response_cookies group_cookies
  cases hr : flow.request.cookies_fields with
  | nil =>
    cases hs : flow.response.cookies_fields with
    | nil => simp [format_cookies, except_bind_ok, except_map_ok]
    | cons b u => simp [format_cookies, except_bind_ok, except_map_error]
  | cons a t =>
    cases hs : flow.response.cookies_fields with
    | nil => simp [format_cookies, except_bind_error]
    | cons b u => simp [format_cookies, except_bind_error]

/-- The successful append puts the entry at the end of `log.entries`. -/
theorem appendEntry_entries (har : Json) (es : List Json) (e : Json)
    (h : jget2 har "log" "entries" = some (.arr es)) :
    jget2 (appendEntry e har) "log" "entries" = some (.arr (es ++ [e])) := by
  unfold appendEntry jget2 at *
  rw [jget_objModify_self]
  cases hl : jget har "log" with
  | none => rw [hl] at h; simp at h
  | some L =>
    rw [hl] at h
    simp only [Option.map_some, Option.map_some', Option.some_bind, Option.bind_some] at *
    rw [jget_objModify_self, h]
    rfl

/-- The successful append leaves every other key of `log` unchanged. -/
theorem appendEntry_log_other (har : Json) (e : Json) (k : String) (hk : k ≠ "entries") :
    jget2 (appendEntry e har) "log" k = jget2 har "log" k := by
  unfold appendEntry jget2
  rw [jget_objModify_self]
  cases hl : jget har "log" with
  | none => rfl
  | some L =>
    simp only [Option.map_some, Option.map_some', Option.some_bind, Option.bind_some]
    exact jget_objModify_ne _ _ hk _ _

/-- The successful append leaves every top-level key other than `log`
unchanged. -/
theorem appendEntry_top_other (har : Json) (e : Json) (k : String) (hk : k ≠ "log") :
    jget (appendEntry e har) k = jget har k :=
  jget_objModify_ne _ _ hk _ _

/-- A sequence of invocations on cookie-free flows succeeds and appends
one entry per flow, in invocation order. -/
theorem runFlows_ok (flows : List Flow) (har : Json) (es : List Json)
    (hcf : ∀ f ∈ flows, f.request.cookies_fields = [] ∧ f.response.cookies_fields = [])
    (h : jget2 har "log" "entries" = some (.arr es)) :
    ∃ doc, runFlows flows har = .ok doc ∧
      jget2 doc "log" "entries" =
        some (.arr (es ++ flows.map (fun f => entryJson f [] []))) := by
  induction flows generalizing har es with
  | nil => exact ⟨har, rfl, by simpa using h⟩
  | cons f fs ih =>
    have hf := hcf f (by simp)
    have hresp : response f har = .ok (appendEntry (entryJson f [] []) har) := by
      unfold response
      rw [makeEntry_eq, if_pos hf, except_map_ok]
    obtain ⟨doc, hrun, hdoc⟩ := ih (appendEntry (entryJson f [] []) har)
      (es ++ [entryJson f [] []]) (fun g hg => hcf g (by simp [hg]))
      (appendEntry_entries har es _ h)
    refine ⟨doc, ?_, by simpa using hdoc⟩
    simp only [runFlows]
    rw [hresp, except_bind_ok, hrun]

/-! ## Claim theorems -/

/-- Claim C1: the response hook computes the raw timings (lines 60-71,
which run before entry construction) as send = request.timestamp_end -
request.timestamp_start, receive = response.timestamp_end -
response.timestamp_start, and wait = response.timestamp_start -
request.timestamp_end, each converted from seconds to integer
milliseconds by truncation (toward zero: floor on nonnegative values,
ceiling on negative ones); every entry the hook manages to construct
carries total time equal to the sum of exactly those timing values that
are non-negative; and for every flow with response.timestamp_start =
request.timestamp_end the computed wait is 0. -/
theorem claim_C1 (flow : Flow) :
    timings_ms flow = [
      ("send", pyInt (1000 * (flow.request.timestamp_end - flow.request.timestamp_start))),
      ("receive", pyInt (1000 * (flow.response.timestamp_end - flow.response.timestamp_start))),
      ("wait", pyInt (1000 * (flow.response.timestamp_start - flow.request.timestamp_end)))] ∧
    (∀ q : ℚ, (0 ≤ q → pyInt q = ⌊q⌋) ∧ (q < 0 → pyInt q = ⌈q⌉)) ∧
    (∀ e, makeEntry flow = .ok e → jget e "time" = some (.int (full_time flow))) ∧
    full_time flow = (((timings_ms flow).map Prod.snd).filter (fun v => 0 ≤ v)).sum ∧
    (flow.response.timestamp_start = flow.request.timestamp_end →
      pyInt (1000 * (flow.response.timestamp_start - flow.request.timestamp_end)) = 0) := by
  refine ⟨rfl, fun q => ⟨pyInt_of_nonneg q, pyInt_of_neg q⟩, ?_, ?_, ?_⟩
  · intro e he
    rw [makeEntry_eq] at he
    split at he
    · injection he with h
      subst h
      simp [entryJson, jget, alookup]
    · simp at he
  · unfold full_time
    rw [filter_gt_neg_one]
  · intro h
    rw [h]
    simp only [sub_self, mul_zero]
    decide

/-- Claim C1 witness: at the cookie-free sample flow (whose response
starts the instant the request ends), the computed wait is 0, the
constructed entry carries the total, and the total is 2000 ms. -/
theorem claim_C1_witness :
    pyInt (1000 * (sampleFlow2.response.timestamp_start - sampleFlow2.request.timestamp_end)) = 0 ∧
    jget (entryJson sampleFlow2 [] []) "time" = some (.int (full_time sampleFlow2)) ∧
    full_time sampleFlow2 = 2000 :=
  ⟨(claim_C1 sampleFlow2).2.2.2.2 rfl,
   (claim_C1 sampleFlow2).2.2.1 (entryJson sampleFlow2 [] []) rfl,
   by simp only [full_time, timings_ms, sampleFlow2]; norm_num [pyInt]⟩

/-- Claim C2: if the input of the generic name/value converter yields at
least one (name, value) item, the result is the ordered list of
name/value records in input order; if it yields no items at all, the
result is the empty string, not an empty array. -/
theorem claim_C2 (o : NVInput) :
    (nvItems o ≠ [] →
      name_value o =
        .arr ((nvItems o).map (fun kv => .obj [("name", .str kv.1), ("value", .str kv.2)]))) ∧
    (nvItems o = [] → name_value o = .str "") := by
  unfold name_value
  constructor <;> intro h <;> simp [h]

/-- Claim C2 witness: a one-item input yields a one-record array; an
itemless input yields the empty string. -/
theorem claim_C2_witness :
    name_value ⟨some [("a", "b")], none⟩ =
      .arr [.obj [("name", .str "a"), ("value", .str "b")]] ∧
    name_value ⟨none, none⟩ = .str "" :=
  ⟨(claim_C2 ⟨some [("a", "b")], none⟩).1 (by decide),
   (claim_C2 ⟨none, none⟩).2 rfl⟩

/-- Claim C3 (code bug): the cookie formatter never yields the claimed
record. The parameter `cookies` of format_cookies (line 133) shadows the
netlib cookie module imported on line 16, so line 152 raises
AttributeError on the first loop iteration of every non-empty input —
including a cookie whose attribute map holds exactly the keys path and
secure — and only the empty input returns (the empty list). -/
theorem claim_C3 (n v p sv : String) (c : String × String × Attrs)
    (cs : List (String × String × Attrs)) :
    format_cookies [(n, v, [("path", p), ("secure", sv)])] = .error attributeErrorMsg ∧
    format_cookies (c :: cs) = .error attributeErrorMsg ∧
    format_cookies [] = .ok [] :=
  ⟨rfl, rfl, rfl⟩

/-- Claim C4 (code bug): the expiration handling of lines 152-154 is dead
code: evaluating line 152 itself raises AttributeError (shadowed
`cookies` parameter), so no cookie record — whether or not its attribute
map yields a computable expiration timestamp — is ever produced, and no
expires field is ever rendered or omitted. -/
theorem claim_C4 (n v : String) (attrs : Attrs) :
    format_cookies [(n, v, [("expires", "100")])] = .error attributeErrorMsg ∧
    format_cookies [(n, v, attrs)] = .error attributeErrorMsg :=
  ⟨rfl, rfl⟩

/-- Claim C5: the startup hook fails with the descriptive usage message
exactly when the number of destination arguments (everything after the
script name in `sys.argv`) is not one, leaving the document
uninitialized; with exactly one destination argument it installs the
document with log version 1.2, the creator metadata, and an empty entries
list. -/
theorem claim_C5 (argv : List String) (mv : String) :
    (argv.tail.length ≠ 1 → start argv mv = .error usageMsg) ∧
    (argv.tail.length = 1 → start argv mv = .ok (initialHar mv)) ∧
    jget2 (initialHar mv) "log" "version" = some (.str "1.2") ∧
    jget2 (initialHar mv) "log" "entries" = some (.arr []) ∧
    jget2 (initialHar mv) "log" "creator" = some (.obj [
      ("name", .str "mitmproxy har_dump"),
      ("version", .str "0.1"),
      ("comment", .str ("mitmproxy version " ++ mv))]) := by
  refine ⟨?_, ?_, rfl, rfl, rfl⟩ <;> intro h <;> unfold start <;> cases argv with
  | nil => simp_all
  | cons a t => simp_all [List.length_cons]

/-- Claim C5 witness: one destination argument initializes the document;
zero destination arguments abort with the usage message. -/
theorem claim_C5_witness :
    start ["har_dump.py", "dump.har"] "2.0" = .ok (initialHar "2.0") ∧
    start ["har_dump.py"] "2.0" = .error usageMsg :=
  ⟨(claim_C5 ["har_dump.py", "dump.har"] "2.0").2.1 rfl,
   (claim_C5 ["har_dump.py"] "2.0").1 (by decide)⟩

/-- Claim C6: with the sentinel destination `-`, shutdown sends exactly the
structural dump of the document to the host's logging channel and writes
no file; with any other destination, it performs exactly one write, of
the 2-space-indented JSON serialization, to that file (a truncating write
that fully overwrites prior content). -/
theorem claim_C6 (har : Json) (d : String) :
    done "-" har = [.log (pformat har)] ∧
    (∀ p c, Effect.writeFile p c ∉ done "-" har) ∧
    (d ≠ "-" → done d har = [.writeFile d (jsonDumps har)]) := by
  refine ⟨rfl, ?_, ?_⟩
  · intro p c
    simp [done]
  · intro h
    simp [done, h]

/-- Claim C6 witness: a file destination gets exactly the one JSON write. -/
theorem claim_C6_witness :
    done "dump.har" (.obj []) = [.writeFile "dump.har" (jsonDumps (.obj []))] :=
  (claim_C6 (.obj []) "dump.har").2.2 (by decide)

/-- Claim C7 (code bug): the response hook does not append exactly one
entry on every invocation. Any flow carrying a request or response
cookie — such as sampleFlow — raises AttributeError at line 152 during
entry construction and appends nothing, and the hook fails exactly on
such flows; on cookie-free flows it appends exactly one entry, changes
nothing else in the document, and a sequence of successful invocations
yields one entry per flow in invocation order. -/
theorem claim_C7 :
    (∀ har, response sampleFlow har = .error attributeErrorMsg) ∧
    (∀ flow har, response flow har = .error attributeErrorMsg ↔
      (flow.request.cookies_fields ≠ [] ∨ flow.response.cookies_fields ≠ [])) ∧
    (∀ flow har e, makeEntry flow = .ok e → response flow har = .ok (appendEntry e har)) ∧
    (∀ har es e, jget2 har "log" "entries" = some (.arr es) →
      jget2 (appendEntry e har) "log" "entries" = some (.arr (es ++ [e]))) ∧
    (∀ har e k, k ≠ "entries" → jget2 (appendEntry e har) "log" k = jget2 har "log" k) ∧
    (∀ har e k, k ≠ "log" → jget (appendEntry e har) k = jget har k) ∧
    (∀ (mv : String) (flows : List Flow),
      (∀ f ∈ flows, f.request.cookies_fields = [] ∧ f.response.cookies_fields = []) →
      ∃ doc, runFlows flows (initialHar mv) = .ok doc ∧
        jget2 doc "log" "entries" = some (.arr (flows.map (fun f => entryJson f [] [])))) := by
  refine ⟨?_, ?_, ?_, appendEntry_entries, appendEntry_log_other, appendEntry_top_other, ?_⟩
  · intro har
    unfold response
    rw [makeEntry_eq, if_neg (by decide), except_map_error]
  · intro flow har
    unfold response
    rw [makeEntry_eq]
    by_cases hc : flow.request.cookies_fields = [] ∧ flow.response.cookies_fields = []
    · rw [if_pos hc, except_map_ok]
      simp [hc.1, hc.2]
    · rw [if_neg hc, except_map_error]
      constructor
      · intro _
        by_contra hno
        push_neg at hno
        exact hc ⟨hno.1, hno.2⟩
      · intro _
        rfl
  · intro flow har e he
    unfold response
    rw [he, except_map_ok]
  · intro mv flows hcf
    obtain ⟨doc, h1, h2⟩ := runFlows_ok flows (initialHar mv) [] hcf rfl
    exact ⟨doc, h1, by simpa using h2⟩

/-- Claim C7 witness: at the fresh document, the hook raises on the
cookie-carrying sample flow; on the cookie-free one it succeeds, growing
entries from zero to one. -/
theorem claim_C7_witness :
    response sampleFlow (initialHar "2.0") = .error attributeErrorMsg ∧
    response sampleFlow2 (initialHar "2.0") =
      .ok (appendEntry (entryJson sampleFlow2 [] []) (initialHar "2.0")) ∧
    jget2 (appendEntry (entryJson sampleFlow2 [] []) (initialHar "2.0")) "log" "entries" =
      some (.arr ([] ++ [entryJson sampleFlow2 [] []])) :=
  ⟨claim_C7.1 (initialHar "2.0"),
   claim_C7.2.2.1 sampleFlow2 (initialHar "2.0") (entryJson sampleFlow2 [] []) rfl,
   claim_C7.2.2.2.1 (initialHar "2.0") [] (entryJson sampleFlow2 [] []) rfl⟩

/-- Claim C8: every entry the response hook manages to construct has a
response content block with compression 0 and size equal to the response
bodySize, all equal to the byte length of the response body, and an
empty cache object. (Construction itself fails for flows carrying
cookies; see the C7 bug.) -/
theorem claim_C8 (flow : Flow) (e : Json) (he : makeEntry flow = .ok e) :
    ((jget2 e "response" "content").bind (fun c => jget c "compression")) = some (.int 0) ∧
    ((jget2 e "response" "content").bind (fun c => jget c "size")) =
      some (.int flow.response.content.length) ∧
    jget2 e "response" "bodySize" = some (.int flow.response.content.length) ∧
    jget e "cache" = some (.obj []) := by
  rw [makeEntry_eq] at he
  split at he
  · injection he with h
    subst h
    refine ⟨?_, ?_, ?_, ?_⟩ <;> simp [entryJson, jget2, jget, alookup]
  · simp at he

/-- Claim C8 witness: the entry constructed for the cookie-free sample
flow has compression 0 and an empty cache object. -/
theorem claim_C8_witness :
    ((jget2 (entryJson sampleFlow2 [] []) "response" "content").bind
      (fun c => jget c "compression")) = some (.int 0) ∧
    jget (entryJson sampleFlow2 [] []) "cache" = some (.obj []) :=
  ⟨(claim_C8 sampleFlow2 (entryJson sampleFlow2 [] []) rfl).1,
   (claim_C8 sampleFlow2 (entryJson sampleFlow2 [] []) rfl).2.2.2⟩

/-- Claim C10: the generic name/value converter prefers the `fields`
attribute over the `items()` method — with both exposed, `fields` decides
the result and `items` is ignored — and with neither exposed the result
is the empty string. -/
theorem claim_C10 (fs its : List (String × String)) :
    nvItems ⟨some fs, some its⟩ = fs ∧
    name_value ⟨some fs, some its⟩ = name_value ⟨some fs, none⟩ ∧
    name_value ⟨none, none⟩ = .str "" :=
  ⟨rfl, rfl, rfl⟩

/-! ## Round-trip of the serializer: helper lemmas -/

/-- The input ahead does not start with a digit (so number parsing stops
exactly at a value's boundary). -/
def noDigitHead : List Char → Prop
  | [] => True
  | c :: _ => c.isDigit = false

/-- A decimal digit character is not whitespace, not a structural JSON
character and not a letter the value dispatcher tests. -/
theorem isDigit_ne (c : Char) (h : c.isDigit = true) :
    c ≠ ' ' ∧ c ≠ '\n' ∧ c ≠ '\t' ∧ c ≠ '\r' ∧ c ≠ '"' ∧ c ≠ '\x7b' ∧
    c ≠ '[' ∧ c ≠ 't' ∧ c ≠ 'f' ∧ c ≠ '-' ∧ c ≠ ']' ∧ c ≠ '\x7d' ∧ c ≠ ',' := by
  refine ⟨?_, ?_, ?_, ?_, ?_, ?_, ?_, ?_, ?_, ?_, ?_, ?_, ?_⟩ <;>
    intro hc <;> subst hc <;> exact absurd h (by decide)

/-- Skipping whitespace passes over a newline. -/
theorem skipWs_newline (l : List Char) : skipWs ('\n' :: l) = skipWs l := by
  simp [skipWs]

/-- Skipping whitespace passes over indentation. -/
theorem skipWs_sp (n : Nat) (l : List Char) : skipWs (sp n ++ l) = skipWs l := by
  induction n with
  | zero => rfl
  | succ m ih =>
    have : sp (m + 1) = ' ' :: sp m := by simp [sp, List.replicate_succ]
    rw [this]
    simpa [skipWs] using ih

/-- Skipping whitespace stops at a non-whitespace character. -/
theorem skipWs_stop (c : Char) (l : List Char)
    (h : ¬(c = ' ' ∨ c = '\n' ∨ c = '\t' ∨ c = '\r')) : skipWs (c :: l) = c :: l := by
  simp [skipWs, h]

/-- The decimal digit character of a value below ten. -/
theorem digitChar_spec (n : Nat) (h : n < 10) :
    (Char.ofNat ('0'.toNat + n)).isDigit = true ∧
    (Char.ofNat ('0'.toNat + n)).toNat - '0'.toNat = n := by
  interval_cases n <;> exact ⟨by decide, by decide⟩

/-- `natDigits` is never empty and starts with a digit. -/
theorem natDigits_head (n : Nat) :
    ∃ c t, natDigits n = c :: t ∧ c.isDigit = true := by
  induction n using Nat.strong_induction_on with
  | _ n ih =>
    by_cases h : n < 10
    · exact ⟨_, _, by rw [natDigits, dif_pos h], (digitChar_spec n h).1⟩
    · obtain ⟨c, t, hct, hd⟩ := ih (n / 10) (Nat.div_lt_self (by omega) (by omega))
      exact ⟨c, t ++ [Char.ofNat ('0'.toNat + n % 10)],
        by rw [natDigits, dif_neg h, hct]; simp, hd⟩

/-- Reading digits consumes a rendered natural number entirely. -/
theorem parseDigits_natDigits (n : Nat) : ∀ (acc : Nat) (z : List Char),
    parseDigits acc (natDigits n ++ z) =
      parseDigits (acc * 10 ^ (natDigits n).length + n) z := by
  induction n using Nat.strong_induction_on with
  | _ n ih =>
    intro acc z
    by_cases h : n < 10
    · rw [natDigits, dif_pos h]
      simp only [List.cons_append, List.nil_append, parseDigits,
        (digitChar_spec n h).1, if_pos, (digitChar_spec n h).2, List.length_cons,
        List.length_nil]
      ring_nf
      rfl
    · rw [natDigits, dif_neg h]
      have h10 : n / 10 < n := Nat.div_lt_self (by omega) (by omega)
      have hm : n % 10 < 10 := Nat.mod_lt _ (by omega)
      rw [List.append_assoc, List.cons_append, List.nil_append,
        ih (n / 10) h10 acc (Char.ofNat ('0'.toNat + n % 10) :: z)]
      simp only [parseDigits, (digitChar_spec _ hm).1, if_pos, (digitChar_spec _ hm).2,
        List.length_append, List.length_cons, List.length_nil]
      have : (acc * 10 ^ (natDigits (n / 10)).length + n / 10) * 10 + n % 10 =
          acc * 10 ^ ((natDigits (n / 10)).length + (0 + 1)) + n := by
        rw [pow_succ]
        have := Nat.div_add_mod n 10
        ring_nf
        omega
      rw [this]

/-- Reading digits stops at a non-digit. -/
theorem parseDigits_stop (a : Nat) (z : List Char) (hz : noDigitHead z) :
    parseDigits a z = (a, z) := by
  cases z with
  | nil => rfl
  | cons c t =>
    simp only [noDigitHead] at hz
    simp [parseDigits, hz]

/-- Reading a natural number literal off a rendered number returns it. -/
theorem parseNat_natDigits (n : Nat) (z : List Char) (hz : noDigitHead z) :
    parseNat (natDigits n ++ z) = some (n, z) := by
  obtain ⟨c, t, hct, hd⟩ := natDigits_head n
  rw [hct]
  simp only [List.cons_append, parseNat, hd, if_pos]
  rw [← List.cons_append, ← hct, parseDigits_natDigits, parseDigits_stop _ _ hz]
  simp

/-- Consuming an expected literal off itself succeeds. -/
theorem expects_append (p z : List Char) : expects p (p ++ z) = some z := by
  induction p with
  | nil => rfl
  | cons c t ih => simp [expects, ih]

/-- A hex digit character round-trips through `hexDigitVal`. -/
theorem hexDigitVal_hexChar (x : Nat) (h : x < 16) :
    hexDigitVal (hexChar x) = some x := by
  interval_cases x <;> decide

/-- Reading one escaped character off the string body reader. -/
theorem parseStrBody_escapeChar (c : Char) (r : List Char) :
    parseStrBody (escapeChar c ++ r) =
      (parseStrBody r).map (fun p => (c :: p.1, p.2)) := by
  by_cases h1 : c = '"'
  · subst h1
    rw [show escapeChar '"' = ['\\', '\"'] from by decide, List.cons_append,
      List.cons_append, List.nil_append, parseStrBody.eq_2, if_neg (by decide),
      if_pos (by decide : ('\\' : Char) = '\\'), parseEsc.eq_2, if_neg (by decide),
      show unescChar '\"' = some '"' from by decide]
    simp only [Option.some_bind]
  by_cases h2 : c = '\\'
  · subst h2
    rw [show escapeChar '\\' = ['\\', '\\'] from by decide, List.cons_append,
      List.cons_append, List.nil_append, parseStrBody.eq_2, if_neg (by decide),
      if_pos (by decide : ('\\' : Char) = '\\'), parseEsc.eq_2, if_neg (by decide),
      show unescChar '\\' = some '\\' from by decide]
    simp only [Option.some_bind]
  by_cases h3 : c = '\n'
  · subst h3
    rw [show escapeChar '\n' = ['\\', 'n'] from by decide, List.cons_append,
      List.cons_append, List.nil_append, parseStrBody.eq_2, if_neg (by decide),
      if_pos (by decide : ('\\' : Char) = '\\'), parseEsc.eq_2, if_neg (by decide),
      show unescChar 'n' = some '\n' from by decide]
    simp only [Option.some_bind]
  by_cases h4 : c = '\t'
  · subst h4
    rw [show escapeChar '\t' = ['\\', 't'] from by decide, List.cons_append,
      List.cons_append, List.nil_append, parseStrBody.eq_2, if_neg (by decide),
      if_pos (by decide : ('\\' : Char) = '\\'), parseEsc.eq_2, if_neg (by decide),
      show unescChar 't' = some '\t' from by decide]
    simp only [Option.some_bind]
  by_cases h5 : c = '\r'
  · subst h5
    rw [show escapeChar '\r' = ['\\', 'r'] from by decide, List.cons_append,
      List.cons_append, List.nil_append, parseStrBody.eq_2, if_neg (by decide),
      if_pos (by decide : ('\\' : Char) = '\\'), parseEsc.eq_2, if_neg (by decide),
      show unescChar 'r' = some '\r' from by decide]
    simp only [Option.some_bind]
  by_cases h6 : c = '\x08'
  · subst h6
    rw [show escapeChar '\x08' = ['\\', 'b'] from by decide, List.cons_append,
      List.cons_append, List.nil_append, parseStrBody.eq_2, if_neg (by decide),
      if_pos (by decide : ('\\' : Char) = '\\'), parseEsc.eq_2, if_neg (by decide),
      show unescChar 'b' = some '\x08' from by decide]
    simp only [Option.some_bind]
  by_cases h7 : c = '\x0c'
  · subst h7
    rw [show escapeChar '\x0c' = ['\\', 'f'] from by decide, List.cons_append,
      List.cons_append, List.nil_append, parseStrBody.eq_2, if_neg (by decide),
      if_pos (by decide : ('\\' : Char) = '\\'), parseEsc.eq_2, if_neg (by decide),
      show unescChar 'f' = some '\x0c' from by decide]
    simp only [Option.some_bind]
  by_cases h8 : c.toNat < 32
  · have hdiv : c.toNat / 16 < 16 := by omega
    have hmod : c.toNat % 16 < 16 := by omega
    simp only [escapeChar, if_neg h1, if_neg h2, if_neg h3, if_neg h4, if_neg h5,
      if_neg h6, if_neg h7, if_pos h8, List.cons_append, List.nil_append]
    rw [parseStrBody.eq_2, if_neg (by decide),
      if_pos (by decide : ('\\' : Char) = '\\'), parseEsc.eq_2,
      if_pos (by decide : ('u' : Char) = 'u'), parseHex4.eq_1,
      show hexDigitVal '0' = some 0 from by decide,
      hexDigitVal_hexChar _ hdiv, hexDigitVal_hexChar _ hmod]
    simp only [Option.some_bind]
    have hc : Char.ofNat ((((0 : Nat) * 16 + 0) * 16 + c.toNat / 16) * 16 + c.toNat % 16) = c := by
      rw [show ((((0 : Nat) * 16 + 0) * 16 + c.toNat / 16) * 16 + c.toNat % 16) = c.toNat by
        omega, Char.ofNat_toNat]
    simp only [hc]
  · simp only [escapeChar, if_neg h1, if_neg h2, if_neg h3, if_neg h4, if_neg h5,
      if_neg h6, if_neg h7, if_neg h8, List.cons_append, List.nil_append]
    rw [parseStrBody.eq_2, if_neg h1, if_neg h2]

/-- The string body reader inverts escaping, consuming the closing quote. -/
theorem parseStrBody_escapeStr (s z : List Char) :
    parseStrBody (escapeStr s ++ ('"' :: z)) = some (s, z) := by
  induction s with
  | nil =>
    simp only [escapeStr, List.nil_append]
    rw [parseStrBody.eq_2, if_pos (rfl : ('"' : Char) = '"')]
  | cons c t ih =>
    simp only [escapeStr, List.append_assoc]
    rw [parseStrBody_escapeChar, ih]
    rfl

/-- Every JSON value needs at least one unit of fuel. -/
theorem jsize_pos (j : Json) : 1 ≤ jsize j := by
  cases j <;> simp [jsize]

/-- Item lists need at least one unit of fuel. -/
theorem lsize_pos (xs : List Json) : 1 ≤ lsize xs := by
  cases xs with
  | nil => simp [lsize]
  | cons x t => simp only [lsize]; omega

/-- Member lists need at least one unit of fuel. -/
theorem osize_pos (kvs : List (String × Json)) : 1 ≤ osize kvs := by
  cases kvs with
  | nil => simp [osize]
  | cons kv t => simp only [osize]; omega

/-- A rendered value starts with a non-whitespace character that is not a
closing bracket. -/
theorem dumpVal_cons (ind : Nat) (j : Json) :
    ∃ c t, dumpVal ind j = c :: t ∧ ¬(c = ' ' ∨ c = '\n' ∨ c = '\t' ∨ c = '\r') ∧
      c ≠ ']' ∧ c ≠ '\x7d' := by
  cases j with
  | str s =>
    refine ⟨'"', escapeStr s.data ++ ['"'], ?_, by decide, by decide, by decide⟩
    simp [dumpVal, dumpStr]
  | int i =>
    by_cases h : i < 0
    · refine ⟨'-', natDigits i.natAbs, ?_, by decide, by decide, by decide⟩
      simp [dumpVal, dumpInt, h]
    · obtain ⟨c, t, hct, hd⟩ := natDigits_head i.toNat
      obtain ⟨a1, a2, a3, a4, _, _, _, _, _, _, a11, a12, _⟩ := isDigit_ne c hd
      refine ⟨c, t, ?_, ?_, a11, a12⟩
      · simp [dumpVal, dumpInt, h, hct]
      · intro hor
        rcases hor with hh | hh | hh | hh
        exacts [a1 hh, a2 hh, a3 hh, a4 hh]
  | bool b =>
    cases b with
    | false =>
      refine ⟨'f', ['a', 'l', 's', 'e'], ?_, by decide, by decide, by decide⟩
      simp [dumpVal]
    | true =>
      refine ⟨'t', ['r', 'u', 'e'], ?_, by decide, by decide, by decide⟩
      simp [dumpVal]
  | arr es =>
    cases es with
    | nil =>
      refine ⟨'[', [']'], ?_, by decide, by decide, by decide⟩
      simp [dumpVal]
    | cons x xs =>
      refine ⟨'[', '\n' :: (sp (ind + 2) ++ (dumpVal (ind + 2) x ++ (dumpItems (ind + 2) xs
        ++ ('\n' :: (sp ind ++ [']']))))), ?_, by decide, by decide, by decide⟩
      simp [dumpVal]
  | obj kvs =>
    cases kvs with
    | nil =>
      refine ⟨'\x7b', ['\x7d'], ?_, by decide, by decide, by decide⟩
      simp [dumpVal]
    | cons kv t =>
      refine ⟨'\x7b', '\n' :: (sp (ind + 2) ++ (dumpMember (ind + 2) kv
        ++ (dumpMembers (ind + 2) t ++ ('\n' :: (sp ind ++ ['\x7d']))))), ?_,
        by decide, by decide, by decide⟩
      simp [dumpVal]

/-- The value reader ignores one leading space. -/
theorem parseVal_ws (fuel : Nat) (l : List Char) :
    parseVal fuel (' ' :: l) = parseVal fuel l := by
  cases fuel with
  | zero => rw [parseVal.eq_1, parseVal.eq_1]
  | succ f =>
    rw [parseVal.eq_2, parseVal.eq_2, show skipWs (' ' :: l) = skipWs l from by simp [skipWs]]

/-- The input after one rendered array item starts with `,` or a newline,
never a digit. -/
theorem noDigitHead_items (ind : Nat) (xs : List Json) (w : List Char) :
    noDigitHead (dumpItems ind xs ++ ('\n' :: w)) := by
  cases xs with
  | nil =>
    simp only [dumpItems, List.nil_append]
    show ('\n').isDigit = false
    decide
  | cons y ys =>
    simp only [dumpItems, List.cons_append]
    show (',').isDigit = false
    decide

/-- The input after one rendered object member starts with `,` or a
newline, never a digit. -/
theorem noDigitHead_members (ind : Nat) (kvs : List (String × Json)) (w : List Char) :
    noDigitHead (dumpMembers ind kvs ++ ('\n' :: w)) := by
  cases kvs with
  | nil =>
    simp only [dumpMembers, List.nil_append]
    show ('\n').isDigit = false
    decide
  | cons kv t =>
    simp only [dumpMembers, List.cons_append]
    show (',').isDigit = false
    decide

/-- Whitespace before a rendered value is skipped up to the value. -/
theorem skipWs_dump_block (ind : Nat) (j : Json) (w : List Char) :
    skipWs ('\n' :: (sp ind ++ (dumpVal ind j ++ w))) = dumpVal ind j ++ w := by
  obtain ⟨c, t, hct, hnws, _, _⟩ := dumpVal_cons ind j
  rw [skipWs_newline, skipWs_sp, hct, List.cons_append, skipWs_stop _ _ hnws,
    ← List.cons_append, ← hct]

/-- A rendered value does not start with a closing bracket. -/
theorem dump_head_ne (ind : Nat) (j : Json) (w : List Char) :
    ¬((dumpVal ind j ++ w).head? = some ']') ∧
      ¬((dumpVal ind j ++ w).head? = some '\x7d') := by
  obtain ⟨c, t, hct, _, h1, h2⟩ := dumpVal_cons ind j
  rw [hct, List.cons_append]
  simp only [List.head?_cons, Option.some.injEq]
  exact ⟨h1, h2⟩

/-- A rendered member, with what follows, laid out character by
character. -/
theorem dumpMember_shape (ind : Nat) (kv : String × Json) (w : List Char) :
    dumpMember ind kv ++ w =
      '"' :: (escapeStr kv.1.data ++ ('"' :: (':' :: (' ' ::
        (dumpVal ind kv.2 ++ w))))) := by
  obtain ⟨k, v⟩ := kv
  rw [dumpMember.eq_1]
  simp [dumpStr, List.cons_append, List.append_assoc]

/-- Round-trip of the serializer, by strong induction on the reader's
fuel: reading back a rendered value (or item list, or member list)
returns it and the trailing input. -/
theorem parse_dump_strong (fuel : Nat) :
    (∀ j ind rest, jsize j ≤ fuel → noDigitHead rest →
      parseVal fuel (dumpVal ind j ++ rest) = some (j, rest)) ∧
    (∀ x xs ind cl rest, lsize (x :: xs) ≤ fuel → noDigitHead rest →
      parseItems fuel ('\n' :: (sp ind ++ (dumpVal ind x ++ (dumpItems ind xs ++
        ('\n' :: (sp cl ++ (']' :: rest))))))) = some (x :: xs, rest)) ∧
    (∀ kv kvs ind cl rest, osize (kv :: kvs) ≤ fuel → noDigitHead rest →
      parseMembers fuel ('\n' :: (sp ind ++ (dumpMember ind kv ++ (dumpMembers ind kvs ++
        ('\n' :: (sp cl ++ ('\x7d' :: rest))))))) = some (kv :: kvs, rest)) := by
  induction fuel using Nat.strong_induction_on with
  | _ fuel ih =>
  refine ⟨?_, ?_, ?_⟩
  · intro j ind rest hf hrest
    cases fuel with
    | zero => exact absurd hf (by have := jsize_pos j; omega)
    | succ f =>
    rw [parseVal.eq_2]
    cases j with
    | str s =>
      rw [dumpVal.eq_1,
        show dumpStr s.data ++ rest = '"' :: (escapeStr s.data ++ ('"' :: rest)) from by
          simp [dumpStr, List.cons_append, List.append_assoc],
        skipWs_stop _ _ (by decide), parseValCore.eq_2, if_pos (rfl : ('"' : Char) = '"'),
        parseStrBody_escapeStr]
      rfl
    | int i =>
      by_cases hneg : i < 0
      · rw [show dumpVal ind (.int i) = '-' :: natDigits i.natAbs from by
          simp [dumpVal, dumpInt, hneg], List.cons_append, skipWs_stop _ _ (by decide),
          parseValCore.eq_2, if_neg (by decide), if_neg (by decide), if_neg (by decide),
          if_neg (by decide), if_neg (by decide), if_pos (rfl : ('-' : Char) = '-'),
          parseNat_natDigits _ _ hrest]
        simp only [Option.map_some']
        have hni : -(i.natAbs : Int) = i := by omega
        rw [hni]
      · obtain ⟨c, t, hct, hd⟩ := natDigits_head i.toNat
        obtain ⟨b1, b2, b3, b4, b5, b6, b7, b8, b9, b10, _, _, _⟩ := isDigit_ne c hd
        have hnws : ¬(c = ' ' ∨ c = '\n' ∨ c = '\t' ∨ c = '\r') := by
          intro hor
          rcases hor with hh | hh | hh | hh
          exacts [b1 hh, b2 hh, b3 hh, b4 hh]
        rw [show dumpVal ind (.int i) = natDigits i.toNat from by
          simp [dumpVal, dumpInt, hneg], hct, List.cons_append,
          skipWs_stop _ _ hnws,
          parseValCore.eq_2, if_neg b5, if_neg b6, if_neg b7, if_neg b8, if_neg b9,
          if_neg b10, if_pos hd, ← List.cons_append, ← hct, parseNat_natDigits _ _ hrest]
        simp only [Option.map_some']
        have hni : (i.toNat : Int) = i := by omega
        rw [hni]
    | bool b =>
      cases b with
      | true =>
        rw [show dumpVal ind (.bool true) = ['t', 'r', 'u', 'e'] from by simp [dumpVal],
          List.cons_append, skipWs_stop _ _ (by decide), parseValCore.eq_2,
          if_neg (by decide), if_neg (by decide), if_neg (by decide),
          if_pos (rfl : ('t' : Char) = 't'), expects_append]
        rfl
      | false =>
        rw [show dumpVal ind (.bool false) = ['f', 'a', 'l', 's', 'e'] from by simp [dumpVal],
          List.cons_append, skipWs_stop _ _ (by decide), parseValCore.eq_2,
          if_neg (by decide), if_neg (by decide), if_neg (by decide), if_neg (by decide),
          if_pos (rfl : ('f' : Char) = 'f'), expects_append]
        rfl
    | arr es =>
      cases es with
      | nil =>
        rw [show dumpVal ind (.arr []) = ['[', ']'] from by simp [dumpVal],
          List.cons_append, List.cons_append, List.nil_append, skipWs_stop _ _ (by decide),
          parseValCore.eq_2, if_neg (by decide), if_neg (by decide),
          if_pos (rfl : ('[' : Char) = '[')]
        obtain ⟨f2, rfl⟩ : ∃ f2, f = f2 + 1 := ⟨f - 1, by
          simp only [jsize, lsize] at hf; omega⟩
        rw [parseItems.eq_2, skipWs_stop _ _ (by decide), List.head?_cons, if_pos rfl]
        rfl
      | cons x xs =>
        rw [dumpVal.eq_5]
        simp only [List.cons_append, List.append_assoc, List.nil_append]
        rw [skipWs_stop _ _ (by decide), parseValCore.eq_2, if_neg (by decide),
          if_neg (by decide), if_pos (rfl : ('[' : Char) = '['),
          (ih f (Nat.lt_succ_self f)).2.1 x xs (ind + 2) ind rest
            (by simp only [jsize] at hf; omega) hrest]
        rfl
    | obj kvs =>
      cases kvs with
      | nil =>
        rw [show dumpVal ind (.obj []) = ['\x7b', '\x7d'] from by simp [dumpVal],
          List.cons_append, List.cons_append, List.nil_append, skipWs_stop _ _ (by decide),
          parseValCore.eq_2, if_neg (by decide), if_pos (rfl : ('\x7b' : Char) = '\x7b')]
        obtain ⟨f2, rfl⟩ : ∃ f2, f = f2 + 1 := ⟨f - 1, by
          simp only [jsize, osize] at hf; omega⟩
        rw [parseMembers.eq_2, skipWs_stop _ _ (by decide), List.head?_cons, if_pos rfl]
        rfl
      | cons kv t =>
        rw [dumpVal.eq_7]
        simp only [List.cons_append, List.append_assoc, List.nil_append]
        rw [skipWs_stop _ _ (by decide), parseValCore.eq_2, if_neg (by decide),
          if_pos (rfl : ('\x7b' : Char) = '\x7b'),
          (ih f (Nat.lt_succ_self f)).2.2 kv t (ind + 2) ind rest
            (by simp only [jsize] at hf; omega) hrest]
        rfl
  · intro x xs ind cl rest hf hrest
    cases fuel with
    | zero => exact absurd hf (by have := lsize_pos (x :: xs); omega)
    | succ f1 =>
    rw [parseItems.eq_2, skipWs_dump_block, if_neg (dump_head_ne ind x _).1,
      (ih f1 (Nat.lt_succ_self f1)).1 x ind _
        (by have := lsize_pos xs; simp only [lsize] at hf; omega)
        (noDigitHead_items ind xs _)]
    simp only [Option.some_bind]
    cases xs with
    | nil =>
      rw [show dumpItems ind ([] : List Json) ++ ('\n' :: (sp cl ++ (']' :: rest))) =
          '\n' :: (sp cl ++ (']' :: rest)) from by simp [dumpItems],
        show skipWs ('\n' :: (sp cl ++ (']' :: rest))) = ']' :: rest from by
          rw [skipWs_newline, skipWs_sp, skipWs_stop _ _ (by decide)],
        List.head?_cons, if_neg (by decide), if_pos rfl]
      rfl
    | cons y ys =>
      rw [show dumpItems ind (y :: ys) ++ ('\n' :: (sp cl ++ (']' :: rest))) =
          ',' :: ('\n' :: (sp ind ++ (dumpVal ind y ++ (dumpItems ind ys ++
            ('\n' :: (sp cl ++ (']' :: rest))))))) from by
          rw [dumpItems.eq_2]; simp [List.cons_append, List.append_assoc],
        skipWs_stop _ _ (by decide), List.head?_cons, if_pos rfl, List.tail_cons,
        (ih f1 (Nat.lt_succ_self f1)).2.1 y ys ind cl rest (by
          have := jsize_pos x; simp only [lsize] at hf ⊢; omega) hrest]
      rfl
  · intro kv kvs ind cl rest hf hrest
    cases fuel with
    | zero => exact absurd hf (by have := osize_pos (kv :: kvs); omega)
    | succ f1 =>
    rw [parseMembers.eq_2, dumpMember_shape,
      show skipWs ('\n' :: (sp ind ++ ('"' :: (escapeStr kv.1.data ++ ('"' :: (':' :: (' ' ::
          (dumpVal ind kv.2 ++ (dumpMembers ind kvs ++ ('\n' :: (sp cl ++
          ('\x7d' :: rest)))))))))))) =
          '"' :: (escapeStr kv.1.data ++ ('"' :: (':' :: (' ' :: (dumpVal ind kv.2 ++
            (dumpMembers ind kvs ++ ('\n' :: (sp cl ++ ('\x7d' :: rest))))))))) from by
        rw [skipWs_newline, skipWs_sp, skipWs_stop _ _ (by decide)],
      if_neg (by simp only [List.head?_cons, Option.some.injEq]; decide),
      parseKeyCont.eq_1, parseStrBody_escapeStr]
    simp only [Option.some_bind]
    rw [skipWs_stop _ _ (by decide), List.head?_cons, if_pos rfl, List.tail_cons, parseVal_ws,
      (ih f1 (Nat.lt_succ_self f1)).1 kv.2 ind _
        (by have := osize_pos kvs; simp only [osize] at hf; omega)
        (noDigitHead_members ind kvs _)]
    simp only [Option.some_bind]
    cases kvs with
    | nil =>
      rw [show dumpMembers ind ([] : List (String × Json)) ++ ('\n' :: (sp cl ++
          ('\x7d' :: rest))) = '\n' :: (sp cl ++ ('\x7d' :: rest)) from by simp [dumpMembers],
        show skipWs ('\n' :: (sp cl ++ ('\x7d' :: rest))) = '\x7d' :: rest from by
          rw [skipWs_newline, skipWs_sp, skipWs_stop _ _ (by decide)],
        List.head?_cons, if_neg (by decide), if_pos rfl]
      rfl
    | cons kv2 t =>
      rw [show dumpMembers ind (kv2 :: t) ++ ('\n' :: (sp cl ++ ('\x7d' :: rest))) =
          ',' :: ('\n' :: (sp ind ++ (dumpMember ind kv2 ++ (dumpMembers ind t ++
            ('\n' :: (sp cl ++ ('\x7d' :: rest))))))) from by
          rw [dumpMembers.eq_2]; simp [List.cons_append, List.append_assoc],
        skipWs_stop _ _ (by decide), List.head?_cons, if_pos rfl, List.tail_cons,
        (ih f1 (Nat.lt_succ_self f1)).2.2 kv2 t ind cl rest (by
          have := jsize_pos kv.2; simp only [osize] at hf ⊢; omega) hrest]
      rfl

/-- Reading back a rendered value returns it and the trailing input. -/
theorem parseVal_dump (j : Json) (fuel ind : Nat) (rest : List Char)
    (hf : jsize j ≤ fuel) (hrest : noDigitHead rest) :
    parseVal fuel (dumpVal ind j ++ rest) = some (j, rest) :=
  (parse_dump_strong fuel).1 j ind rest hf hrest

/-- The fuel a value needs is bounded by the length of its rendering, by
strong induction on the value's size. -/
theorem jsize_le_dump_strong (n : Nat) :
    (∀ j ind, sizeOf j ≤ n → jsize j ≤ (dumpVal ind j).length) ∧
    (∀ xs ind, sizeOf xs ≤ n → lsize (xs : List Json) ≤ (dumpItems ind xs).length + 2) ∧
    (∀ kvs ind, sizeOf kvs ≤ n →
      osize (kvs : List (String × Json)) ≤ (dumpMembers ind kvs).length + 2) := by
  induction n using Nat.strong_induction_on with
  | _ n ih =>
  refine ⟨?_, ?_, ?_⟩
  · intro j ind hn
    cases j with
    | str s => simp [jsize, dumpVal, dumpStr]
    | int i =>
      by_cases hneg : i < 0
      · simp [jsize, dumpVal, dumpInt, hneg]
      · obtain ⟨c, t, hct, _⟩ := natDigits_head i.toNat
        simp [jsize, dumpVal, dumpInt, hneg, hct]
    | bool b => cases b <;> simp [jsize, dumpVal]
    | arr es =>
      cases es with
      | nil => simp [jsize, lsize, dumpVal]
      | cons x xs =>
        have hsz : 2 + sizeOf x + sizeOf xs ≤ n := by
          have := hn; simp at this; omega
        have h1 := (ih (n - 1) (by omega)).1 x (ind + 2) (by omega)
        have h2 := (ih (n - 1) (by omega)).2.1 xs (ind + 2) (by omega)
        simp only [jsize, lsize, dumpVal.eq_5, List.length_cons, List.length_append,
          sp, List.length_replicate, List.length_nil] at *
        omega
    | obj kvs =>
      cases kvs with
      | nil => simp [jsize, osize, dumpVal]
      | cons kv t =>
        have hsz : 2 + sizeOf kv + sizeOf t ≤ n := by
          have := hn; simp at this; omega
        have h2 := (ih (n - 1) (by omega)).1 kv.2 (ind + 2) (by
          obtain ⟨k, v⟩ := kv; simp at hsz ⊢; omega)
        have h3 := (ih (n - 1) (by omega)).2.2 t (ind + 2) (by omega)
        obtain ⟨k, v⟩ := kv
        simp only [jsize, osize, dumpVal.eq_7, dumpMember.eq_1, dumpStr,
          List.length_cons, List.length_append, sp, List.length_replicate,
          List.length_nil] at *
        omega
  · intro xs ind hn
    cases xs with
    | nil => simp [lsize, dumpItems]
    | cons y ys =>
      have hsz : 1 + sizeOf y + sizeOf ys ≤ n := by
        have := hn; simp at this; omega
      have h1 := (ih (n - 1) (by have := jsize_pos y; omega)).1 y ind (by omega)
      have h2 := (ih (n - 1) (by have := jsize_pos y; omega)).2.1 ys ind (by omega)
      simp only [lsize, dumpItems.eq_2, List.length_cons, List.length_append,
        sp, List.length_replicate] at *
      omega
  · intro kvs ind hn
    cases kvs with
    | nil => simp [osize, dumpMembers]
    | cons kv t =>
      have hsz : 1 + sizeOf kv + sizeOf t ≤ n := by
        have := hn; simp at this; omega
      have h1 := (ih (n - 1) (by omega)).1 kv.2 ind (by
        obtain ⟨k, v⟩ := kv; simp at hsz ⊢; omega)
      have h2 := (ih (n - 1) (by omega)).2.2 t ind (by omega)
      obtain ⟨k, v⟩ := kv
      simp only [osize, dumpMembers.eq_2, dumpMember.eq_1, dumpStr, List.length_cons,
        List.length_append, sp, List.length_replicate] at *
      omega

/-- The fuel a value needs is bounded by the length of its rendering. -/
theorem jsize_le_dump (j : Json) (ind : Nat) : jsize j ≤ (dumpVal ind j).length :=
  (jsize_le_dump_strong (sizeOf j)).1 j ind le_rfl

/-- Claim C9: serializing any accumulated document the way the shutdown
hook writes it (2-space-indented JSON) and parsing the written text back
yields a structurally identical document — the same keys, value types,
entry order and pair order, since `Json` equality is structural and
order-preserving. -/
theorem claim_C9 (har : Json) : jsonParse (jsonDumps har) = some har := by
  have hf : jsize har ≤ (dumpVal 0 har).length + 1 := by
    have := jsize_le_dump har 0; omega
  have h := parseVal_dump har ((dumpVal 0 har).length + 1) 0 [] hf trivial
  rw [List.append_nil] at h
  unfold jsonParse jsonDumps
  rw [show (String.mk (dumpVal 0 har)).length = (dumpVal 0 har).length from rfl,
    show (String.mk (dumpVal 0 har)).data = dumpVal 0 har from rfl, h]
  rfl

end HarDump
